import Mathlib

/-!
Shallow embedding of the Mirai matchmaking repository (Heliozoa/mirai):
the rendezvous server's message handler (mirai-matchmaking-server/src/main.rs,
`with_socket`) and the matchmaking client's handler loop and command surface
(mirai-matchmaking-client/src/lib.rs, `Client`), together with theorems about
the protocol claims.

Modelling choices:
- `SocketAddr` is modelled as `Nat` (an abstract address identifier).
- `u128` timestamps and latencies are modelled as `Nat`; the one place where
  overflow/underflow matters (the unguarded `local_time - past_local_time`
  subtraction in the `PingResponse` handler) is modelled explicitly with a
  checked subtraction returning `Option`.
- `HashSet<SocketAddr>` becomes `Finset Nat`; `HashMap<SocketAddr, Peer>`
  becomes an association list with last-insert-wins lookup. Iteration over a
  hash set (broadcast fan-out, peer-set merge) is modelled as iteration over
  the sorted list of elements, fixing one concrete iteration order.
- Each handler arm is a pure function from state and message to new state and
  the list of (destination, message) sends it performs.
-/

/-- Wire messages sent from a matchmaking client to the server
(mirai-core `ClientToServer`). -/
inductive ClientToServer
  | StatusCheck
  | Queue
  | Dequeue
  | Heartbeat
deriving DecidableEq

/-- Wire messages sent from the server to a matchmaking client
(mirai-core `ServerToClient`). -/
inductive ServerToClient
  | Alive
  | Peers (s : Finset Nat)
  | Queued (a : Nat)
  | Dequeued (a : Nat)
deriving DecidableEq

theorem insertionSortPermEq {l1 l2 : List Nat} (p : l1.Perm l2) :
    l1.insertionSort (· ≤ ·) = l2.insertionSort (· ≤ ·) :=
  List.eq_of_perm_of_sorted
    ((List.perm_insertionSort _ l1).trans (p.trans (List.perm_insertionSort _ l2).symm))
    (List.sorted_insertionSort _ l1) (List.sorted_insertionSort _ l2)

/-- The elements of a multiset of addresses in increasing order, via
structural insertion sort (so that concrete instances evaluate). -/
def msortedList (m : Multiset Nat) : List Nat :=
  Quot.liftOn m (fun l => l.insertionSort (· ≤ ·))
    (fun _ _ p => insertionSortPermEq p)

theorem mem_msortedList {a : Nat} {m : Multiset Nat} :
    a ∈ msortedList m ↔ a ∈ m :=
  Quotient.inductionOn m (fun l => by simp [msortedList])

/-- Fixed iteration order used to model `for x in hash_set` loops: the
elements of the set in increasing order. -/
def fanoutList (s : Finset Nat) : List Nat :=
  msortedList s.val

theorem mem_fanoutList {a : Nat} {s : Finset Nat} :
    a ∈ fanoutList s ↔ a ∈ s :=
  mem_msortedList

/-- One handler step of the rendezvous server loop for an incoming packet
from address `src` (mirai-matchmaking-server `with_socket`, packet arm).
Returns the new queue and the list of (destination, message) sends, in
send order. Broadcast fan-out iterates the cloned set in sorted order. -/
def serverHandle (queue : Finset Nat) (src : Nat) (msg : ClientToServer) :
    Finset Nat × List (Nat × ServerToClient) :=
  match msg with
  | ClientToServer.StatusCheck => (queue, [(src, ServerToClient.Alive)])
  | ClientToServer.Queue =>
      let queue_clone := queue.erase src
      (insert src queue,
        (src, ServerToClient.Peers queue_clone) ::
          (fanoutList queue_clone).map (fun client => (client, ServerToClient.Queued src)))
  | ClientToServer.Dequeue => (queue.erase src, [])
  | ClientToServer.Heartbeat => (queue, [])

/-- Transport-level timeout notification for address `a` on the server:
the address is removed from the queue silently (`with_socket`, Timeout arm). -/
def serverTimeout (queue : Finset Nat) (a : Nat) : Finset Nat :=
  queue.erase a

/-- Runs the server handler over a sequence of incoming (source, message)
packets, concatenating all sends in order. -/
def serverRun (queue : Finset Nat) :
    List (Nat × ClientToServer) → Finset Nat × List (Nat × ServerToClient)
  | [] => (queue, [])
  | (src, msg) :: rest =>
      let step := serverHandle queue src msg
      let tail := serverRun step.1 rest
      (tail.1, step.2 ++ tail.2)

/-- Wire messages exchanged between matchmaking clients
(mirai-matchmaking-client `ClientToClient`). -/
inductive ClientToClient
  | Ping (t : Nat)
  | PingResponse (t : Nat)
  | Challenge
  | Accept
  | Decline
  | Start (t : Nat)
deriving DecidableEq

/-- Local, advisory display status of a peer
(mirai-matchmaking-client `PeerStatus`). -/
inductive PeerStatus
  | None
  | OutgoingChallenge
  | IncomingChallenge
  | Confirmed
deriving DecidableEq

/-- A potential opponent known to a client (mirai-matchmaking-client `Peer`).
`latency` and ping latencies are `u128` in the source, `ping_count` a `u32`;
the values reached here stay far below those bounds. -/
structure Peer where
  addr : Nat
  latency : Option Nat
  ping_count : Nat
  status : PeerStatus
deriving DecidableEq

/-- `Peer::new`: a freshly learned peer with no latency samples. -/
def Peer.new (addr : Nat) : Peer :=
  { addr := addr, latency := none, ping_count := 0, status := PeerStatus.None }

/-- `Peer::add_ping`: record one latency sample; the running estimate is the
sample itself for the first sample, and `old / 2 + sample / 2` (integer
division) afterwards. -/
def Peer.add_ping (p : Peer) (ping_latency : Nat) : Peer :=
  { p with
    ping_count := p.ping_count + 1,
    latency :=
      match p.latency with
      | some latency => some (latency / 2 + ping_latency / 2)
      | none => some ping_latency }

/-- Client-side connection status towards the server
(mirai-matchmaking-client `ServerConnection`); the `Connecting` deadline is
an abstract instant. -/
inductive ServerConnection
  | Connected
  | Disconnected
  | Connecting (deadline : Nat)
deriving DecidableEq

/-- Client-side match status (mirai-matchmaking-client `Status`). -/
inductive Status
  | Idle
  | QueuePending
  | Queued
  | MatchPending (a : Nat)
  | MatchConfirmed (a : Nat)
deriving DecidableEq

/-- Association-list model of the client's `HashMap<SocketAddr, Peer>`:
lookup returns the most recently inserted binding for a key. -/
def mlookup : List (Nat × Peer) → Nat → Option Peer
  | [], _ => none
  | (k, v) :: rest, a => if k = a then some v else mlookup rest a

/-- `HashMap::insert`: bind `k` to `v`, replacing any previous binding. -/
def mapInsert (k : Nat) (v : Peer) (m : List (Nat × Peer)) : List (Nat × Peer) :=
  (k, v) :: m.filter (fun p => p.1 ≠ k)

/-- `HashMap::remove`: drop any binding for `k`. -/
def mapRemove (k : Nat) (m : List (Nat × Peer)) : List (Nat × Peer) :=
  m.filter (fun p => p.1 ≠ k)

/-- The mutable state shared between the client's handler loop and its
owner-facing methods: match status, server-connection status, peer table and
the two challenge sets (mirai-matchmaking-client `Client` fields, each an
`Arc<Mutex<_>>` in the source). -/
structure ClientState where
  status : Status
  server_connection : ServerConnection
  peers : List (Nat × Peer)
  incoming_challenges : Finset Nat
  outgoing_challenges : Finset Nat
deriving DecidableEq

/-- Rust `u128` subtraction as used unguarded in the `PingResponse` handler:
it underflows (panics in a debug build, wraps in release) when the
subtrahend exceeds the minuend; modelled as `none` in that case. -/
def checkedSub (a b : Nat) : Option Nat :=
  if b ≤ a then some (a - b) else none

/-- One handler-loop step of `Client::handler` for a packet arriving from a
non-server address `src` (the `ClientToClient` match, lines 211-275 of
mirai-matchmaking-client/src/lib.rs). `local_time` is
`start_time.elapsed().as_nanos()` at the moment the packet is processed.
Returns `none` exactly when the unguarded `u128` subtraction in the
`PingResponse` arm underflows; otherwise the new state and the sends made. -/
def handleClientMsg (st : ClientState) (src : Nat) (msg : ClientToClient)
    (local_time : Nat) : Option (ClientState × List (Nat × ClientToClient)) :=
  match msg with
  | ClientToClient.Challenge =>
      some ({ st with incoming_challenges := insert src st.incoming_challenges }, [])
  | ClientToClient.Accept =>
      match st.status with
      | Status.Queued =>
          if src ∈ st.outgoing_challenges then
            some ({ st with status := Status.MatchPending src },
              [(src, ClientToClient.Start 0)])
          else some (st, [])
      | _ => some (st, [])
  | ClientToClient.Decline =>
      let st2 := { st with outgoing_challenges := st.outgoing_challenges.erase src }
      match st2.status with
      | Status.MatchPending addr =>
          if addr = src then some ({ st2 with status := Status.Queued }, [])
          else some (st2, [])
      | _ => some (st2, [])
  | ClientToClient.Start _ =>
      match st.status with
      | Status.Queued =>
          some ({ st with
                  incoming_challenges := ∅,
                  outgoing_challenges := ∅,
                  status := Status.MatchConfirmed src },
            [(src, ClientToClient.Start 0)])
      | Status.MatchPending addr =>
          if addr = src then
            some ({ st with status := Status.MatchConfirmed src }, [])
          else some (st, [])
      | _ => some (st, [])
  | ClientToClient.Ping remote_time =>
      some (st, [(src, ClientToClient.PingResponse remote_time)])
  | ClientToClient.PingResponse past_local_time =>
      match mlookup st.peers src with
      | some peer =>
          match checkedSub local_time past_local_time with
          | some diff =>
              some ({ st with
                      peers := mapInsert src (peer.add_ping (diff / 2)) st.peers }, [])
          | none => none
      | none => some (st, [])

/-- One handler-loop step of `Client::handler` for a packet arriving from the
server address (the `FromServer` match, lines 277-302). Merging a `Peers`
set iterates it in sorted order; each member is inserted as a fresh
`Peer::new`. No sends are made in any arm. -/
def handleServerMsg (st : ClientState) (msg : ServerToClient) : ClientState :=
  match msg with
  | ServerToClient.Peers new_peers =>
      let peers2 := (fanoutList new_peers).foldl
        (fun m peer => mapInsert peer (Peer.new peer) m) st.peers
      let status2 := match st.status with
        | Status.QueuePending => Status.Queued
        | s => s
      { st with peers := peers2, status := status2 }
  | ServerToClient.Queued addr =>
      { st with peers := mapInsert addr (Peer.new addr) st.peers }
  | ServerToClient.Dequeued addr =>
      { st with peers := mapRemove addr st.peers }
  | ServerToClient.Alive => st

/-- Transport `Connect(addr)` notification in `Client::handler` (lines
305-311): the server-connection status becomes `Connected` only when the
notification is for the server address. -/
def handleConnect (server_addr addr : Nat) (sc : ServerConnection) :
    ServerConnection :=
  if addr = server_addr then ServerConnection.Connected else sc

/-- Transport `Timeout(addr)` notification in `Client::handler` (lines
312-318): the server-connection status becomes `Disconnected` only when the
notification is for the server address. -/
def handleTimeout (server_addr addr : Nat) (sc : ServerConnection) :
    ServerConnection :=
  if addr = server_addr then ServerConnection.Disconnected else sc

/-- End-of-iteration check in `Client::handler` (lines 333-338): a
`Connecting` status whose deadline has passed (`Instant::now() > time_limit`)
reverts to `Disconnected`. -/
def checkConnectingDeadline (sc : ServerConnection) (now : Nat) :
    ServerConnection :=
  match sc with
  | ServerConnection.Connecting time_limit =>
      if time_limit < now then ServerConnection.Disconnected else sc
  | _ => sc

/-- `Client::queue` (lines 346-360): from `Idle`, serialize and send `Queue`
to the server and set status `QueuePending`; otherwise a no-op. The source
inspects the server-connection status when it is `Disconnected` but only
emits a placeholder debug log (`debug!("asd")`) and never modifies it:
`ServerConnection::Connecting` is constructed nowhere in the crate. -/
def Client.queue (st : ClientState) : ClientState × List ClientToServer :=
  match st.status with
  | Status.Idle =>
      ({ st with status := Status.QueuePending }, [ClientToServer.Queue])
  | _ => (st, [])

/-- `Client::dequeue` (lines 366-376): from `QueuePending` or `Queued`, send
`Dequeue` to the server, reset status to `Idle` and mark the server
connection `Disconnected`; otherwise a no-op. -/
def Client.dequeue (st : ClientState) : ClientState × List ClientToServer :=
  match st.status with
  | Status.QueuePending =>
      ({ st with status := Status.Idle,
                 server_connection := ServerConnection.Disconnected },
        [ClientToServer.Dequeue])
  | Status.Queued =>
      ({ st with status := Status.Idle,
                 server_connection := ServerConnection.Disconnected },
        [ClientToServer.Dequeue])
  | _ => (st, [])

theorem mlookup_cons (k : Nat) (v : Peer) (rest : List (Nat × Peer)) (a : Nat) :
    mlookup ((k, v) :: rest) a = if k = a then some v else mlookup rest a := rfl

theorem mlookup_filter_ne (k a : Nat) (h : ¬ a = k) :
    ∀ m : List (Nat × Peer),
      mlookup (m.filter (fun p => p.1 ≠ k)) a = mlookup m a := by
  intro m
  induction m with
  | nil => rfl
  | cons hd tl ih =>
    rcases hd with ⟨k1, v1⟩
    rw [List.filter_cons]
    by_cases hk : k1 = k
    · rw [if_neg (by simp [hk]), ih, mlookup_cons,
        if_neg (fun hh => h (hh.symm.trans hk))]
    · rw [if_pos (by simp [hk]), mlookup_cons, mlookup_cons]
      by_cases ha : k1 = a
      · rw [if_pos ha, if_pos ha]
      · rw [if_neg ha, if_neg ha, ih]

theorem mlookup_mapInsert_self (k : Nat) (v : Peer) (m : List (Nat × Peer)) :
    mlookup (mapInsert k v m) k = some v := by
  simp [mapInsert, mlookup]

theorem mlookup_mapInsert_ne (k a : Nat) (v : Peer) (m : List (Nat × Peer))
    (h : ¬ k = a) :
    mlookup (mapInsert k v m) a = mlookup m a := by
  have h1 : ¬ a = k := fun hh => h hh.symm
  unfold mapInsert
  rw [mlookup_cons, if_neg h, mlookup_filter_ne k a h1]

theorem mlookup_peerFoldl_not_mem (a : Nat) :
    ∀ (l : List Nat) (m : List (Nat × Peer)), a ∉ l →
      mlookup (l.foldl (fun m peer => mapInsert peer (Peer.new peer) m) m) a
        = mlookup m a := by
  intro l
  induction l with
  | nil =>
    intro m _
    rfl
  | cons x xs ih =>
    intro m h
    have hx : ¬ x = a := fun hh => h (List.mem_cons.mpr (Or.inl hh.symm))
    have hxs : a ∉ xs := fun hh => h (List.mem_cons_of_mem x hh)
    rw [List.foldl_cons, ih _ hxs, mlookup_mapInsert_ne x a (Peer.new x) m hx]

theorem mlookup_peerFoldl_mem (a : Nat) :
    ∀ (l : List Nat) (m : List (Nat × Peer)), a ∈ l →
      mlookup (l.foldl (fun m peer => mapInsert peer (Peer.new peer) m) m) a
        = some (Peer.new a) := by
  intro l
  induction l with
  | nil => intro m h; cases h
  | cons x xs ih =>
    intro m h
    by_cases hxs : a ∈ xs
    · rw [List.foldl_cons]
      exact ih _ hxs
    · have hx : x = a := by
        rcases List.mem_cons.mp h with h1 | h2
        · exact h1.symm
        · exact absurd h2 hxs
      subst hx
      rw [List.foldl_cons, mlookup_peerFoldl_not_mem x xs _ hxs,
        mlookup_mapInsert_self]

/-- Claim C3, counterexample: with queue {1, 2, 3}, a `Dequeue` from the queued
address 2 removes 2 but sends nothing at all — in particular the remaining
member 1 does not receive `Dequeued(2)`, contrary to the claimed broadcast. -/
theorem dequeue_broadcast_cex :
    (2 ∈ ({1, 2, 3} : Finset Nat))
    ∧ serverHandle {1, 2, 3} 2 ClientToServer.Dequeue = ({1, 3}, [])
    ∧ ¬ (1, ServerToClient.Dequeued 2)
        ∈ (serverHandle {1, 2, 3} 2 ClientToServer.Dequeue).2 := by
  decide

/-- Claim C3, amended: a `Dequeue` from `src` removes `src` from the queue (a
no-op when `src` is not queued) and sends no messages; no `Dequeued`
broadcast is ever produced. -/
theorem dequeue_removes_silently (q : Finset Nat) (src : Nat) :
    serverHandle q src ClientToServer.Dequeue = (q.erase src, [])
    ∧ (src ∉ q → serverHandle q src ClientToServer.Dequeue = (q, []))
    ∧ (∀ a m, (a, ServerToClient.Dequeued m)
        ∉ (serverHandle q src ClientToServer.Dequeue).2) := by
  refine ⟨rfl, fun h => ?_, fun a m => ?_⟩
  · simp [serverHandle, Finset.erase_eq_of_not_mem h]
  · simp [serverHandle]

/-- Witness for C3's amended theorem at queue {1, 2} and unqueued sender 5. -/
theorem dequeue_removes_silently_w :
    (5 ∉ ({1, 2} : Finset Nat))
    ∧ serverHandle {1, 2} 5 ClientToServer.Dequeue = ({1, 2}, []) :=
  ⟨by decide, (dequeue_removes_silently {1, 2} 5).2.1 (by decide)⟩

/-- Claim C4: a `Queue` from a not-yet-queued `src` first replies to `src` with the
pre-insertion peer set (`queue \ {src} = queue`), then sends `Queued(src)` to
every currently-queued address, and the resulting queue has `src` inserted;
consequently the Q1, Q2, Q3 run from the empty queue produces exactly
`Peers({})` to 1, `Peers({1})` to 2, `Queued(2)` to 1, `Peers({1,2})` to 3,
and `Queued(3)` to each of 1 and 2. -/
theorem queue_fresh_admission (q : Finset Nat) (src : Nat) (h : src ∉ q) :
    serverHandle q src ClientToServer.Queue =
      (insert src q,
        (src, ServerToClient.Peers q) ::
          (fanoutList q).map (fun client => (client, ServerToClient.Queued src)))
    ∧ serverRun ∅
        [(1, ClientToServer.Queue), (2, ClientToServer.Queue),
          (3, ClientToServer.Queue)] =
      ({1, 2, 3},
        [(1, ServerToClient.Peers ∅),
          (2, ServerToClient.Peers {1}), (1, ServerToClient.Queued 2),
          (3, ServerToClient.Peers {1, 2}),
          (1, ServerToClient.Queued 3), (2, ServerToClient.Queued 3)]) := by
  constructor
  · simp [serverHandle, Finset.erase_eq_of_not_mem h]
  · have hq : serverRun ∅
        [(1, ClientToServer.Queue), (2, ClientToServer.Queue),
          (3, ClientToServer.Queue)] =
      ({3, 2, 1},
        [(1, ServerToClient.Peers ∅),
          (2, ServerToClient.Peers {1}), (1, ServerToClient.Queued 2),
          (3, ServerToClient.Peers {2, 1}),
          (1, ServerToClient.Queued 3), (2, ServerToClient.Queued 3)]) := by
      decide
    have hs3 : ({3, 2, 1} : Finset Nat) = {1, 2, 3} := by
      apply Finset.ext
      intro a
      simp only [Finset.mem_insert, Finset.mem_singleton]
      tauto
    have hs2 : ({2, 1} : Finset Nat) = {1, 2} := by
      apply Finset.ext
      intro a
      simp only [Finset.mem_insert, Finset.mem_singleton]
      tauto
    rw [hq, hs3, hs2]

/-- Witness for C4 at queue {1, 2} and fresh sender 3. -/
theorem queue_fresh_admission_w :
    (3 ∉ ({1, 2} : Finset Nat))
    ∧ serverHandle {1, 2} 3 ClientToServer.Queue =
        (insert 3 ({1, 2} : Finset Nat),
          (3, ServerToClient.Peers {1, 2}) ::
            (fanoutList ({1, 2} : Finset Nat)).map
              (fun client => (client, ServerToClient.Queued 3))) :=
  ⟨by decide, (queue_fresh_admission {1, 2} 3 (by decide)).1⟩

/-- Claim C5, counterexample: with queue {1, 2}, a `Queue` from the already-queued
address 1 does reply `Peers({2})`, but it also broadcasts `Queued(1)` to the
other member 2, contrary to the claimed "no broadcast" resync. -/
theorem requeue_resync_cex :
    (1 ∈ ({1, 2} : Finset Nat))
    ∧ serverHandle {1, 2} 1 ClientToServer.Queue =
        ({1, 2}, [(1, ServerToClient.Peers {2}), (2, ServerToClient.Queued 1)])
    ∧ (2, ServerToClient.Queued 1)
        ∈ (serverHandle {1, 2} 1 ClientToServer.Queue).2 := by
  decide

/-- Claim C5, amended: a `Queue` from an already-queued `src` replies to `src`
with `Peers(queue \ {src})` and, since the handler does not special-case an
already-queued sender, it also broadcasts `Queued(src)` to every other
queued address; the queue itself is unchanged. -/
theorem requeue_resync_broadcasts (q : Finset Nat) (src : Nat) (h : src ∈ q) :
    serverHandle q src ClientToServer.Queue =
      (q,
        (src, ServerToClient.Peers (q.erase src)) ::
          (fanoutList (q.erase src)).map
            (fun client => (client, ServerToClient.Queued src))) := by
  simp [serverHandle, Finset.insert_eq_self.mpr h]

/-- Witness for C5's amended theorem at queue {1, 2} and queued sender 1. -/
theorem requeue_resync_broadcasts_w :
    (1 ∈ ({1, 2} : Finset Nat))
    ∧ serverHandle {1, 2} 1 ClientToServer.Queue =
        ({1, 2},
          (1, ServerToClient.Peers (({1, 2} : Finset Nat).erase 1)) ::
            (fanoutList (({1, 2} : Finset Nat).erase 1)).map
              (fun client => (client, ServerToClient.Queued 1))) :=
  ⟨by decide, requeue_resync_broadcasts {1, 2} 1 (by decide)⟩

/-- The state a freshly created client starts in (`Client::new`, lines
161-162): status `Idle`, server connection `Disconnected`, empty tables. -/
def initialClientState : ClientState :=
  { status := Status.Idle,
    server_connection := ServerConnection.Disconnected,
    peers := [],
    incoming_challenges := ∅,
    outgoing_challenges := ∅ }

/-- A concrete client state used in witnesses: `Queued`, knowing peer 4,
with an outgoing challenge to 4. -/
def stQueued : ClientState :=
  { status := Status.Queued,
    server_connection := ServerConnection.Connected,
    peers := [(4, Peer.new 4)],
    incoming_challenges := ∅,
    outgoing_challenges := {4} }

/-- A concrete client state used in witnesses: match confirmed with peer 9. -/
def stConfirmed : ClientState :=
  { status := Status.MatchConfirmed 9,
    server_connection := ServerConnection.Connected,
    peers := [(9, Peer.new 9)],
    incoming_challenges := ∅,
    outgoing_challenges := ∅ }

/-- A concrete client state used in witnesses: a peer table holding a peer
with an existing latency estimate and sample count. -/
def stOldPeer : ClientState :=
  { status := Status.Queued,
    server_connection := ServerConnection.Connected,
    peers := [(4, { addr := 4, latency := some 100, ping_count := 3,
                    status := PeerStatus.None })],
    incoming_challenges := ∅,
    outgoing_challenges := ∅ }

/-- Claim C1, counterexample: a client in `MatchPending(5)` whose
`outgoing_challenges` still contains 5 (exactly the state produced by the
`Accept` transition) receives `Start` from 5: the status becomes
`MatchConfirmed(5)` but the challenge sets are not cleared —
`outgoing_challenges` is still {5}, which is not empty. -/
theorem confirm_clears_challenges_cex :
    handleClientMsg
        { status := Status.MatchPending 5,
          server_connection := ServerConnection.Connected,
          peers := [(5, Peer.new 5)],
          incoming_challenges := ∅,
          outgoing_challenges := {5} }
        5 (ClientToClient.Start 0) 0 =
      some ({ status := Status.MatchConfirmed 5,
              server_connection := ServerConnection.Connected,
              peers := [(5, Peer.new 5)],
              incoming_challenges := ∅,
              outgoing_challenges := {5} }, [])
    ∧ ({5} : Finset Nat) ≠ ∅ := by
  exact ⟨by decide, Finset.singleton_ne_empty 5⟩

/-- Claim C1, amended: the challenge sets are cleared exactly in the
Start-received-while-`Queued` transition to `MatchConfirmed`; in the
Start-received-while-`MatchPending(p)` transition the status becomes
`MatchConfirmed(p)` but both challenge sets are left unchanged, so they are
empty after that transition only if they were already empty before it. -/
theorem start_transition_challenge_sets (st : ClientState) (src t lt : Nat) :
    (st.status = Status.Queued →
      handleClientMsg st src (ClientToClient.Start t) lt =
        some ({ st with status := Status.MatchConfirmed src,
                        incoming_challenges := ∅,
                        outgoing_challenges := ∅ },
          [(src, ClientToClient.Start 0)]))
    ∧ (st.status = Status.MatchPending src →
      handleClientMsg st src (ClientToClient.Start t) lt =
        some ({ st with status := Status.MatchConfirmed src }, [])) := by
  constructor
  · intro h
    simp [handleClientMsg, h]
  · intro h
    simp [handleClientMsg, h]

/-- Witness for C1's amended theorem: from `stQueued`, `Start` from 4 yields
`MatchConfirmed(4)` with both challenge sets cleared. -/
theorem start_transition_challenge_sets_w :
    stQueued.status = Status.Queued
    ∧ handleClientMsg stQueued 4 (ClientToClient.Start 7) 0 =
        some ({ stQueued with status := Status.MatchConfirmed 4,
                              incoming_challenges := ∅,
                              outgoing_challenges := ∅ },
          [(4, ClientToClient.Start 0)]) :=
  ⟨rfl, (start_transition_challenge_sets stQueued 4 7 0).1 rfl⟩

/-- Claim C2: an `Accept` from `src` while `Queued` with `src` in
`outgoing_challenges` sends `Start(0)` to `src` and moves the status to
`MatchPending(src)`; in every other case (status not `Queued`, or `src` not
in `outgoing_challenges`) the whole state is unchanged and nothing is sent. -/
theorem accept_guard (st : ClientState) (src lt : Nat) :
    (st.status = Status.Queued → src ∈ st.outgoing_challenges →
      handleClientMsg st src ClientToClient.Accept lt =
        some ({ st with status := Status.MatchPending src },
          [(src, ClientToClient.Start 0)]))
    ∧ (st.status ≠ Status.Queued →
      handleClientMsg st src ClientToClient.Accept lt = some (st, []))
    ∧ (src ∉ st.outgoing_challenges →
      handleClientMsg st src ClientToClient.Accept lt = some (st, [])) := by
  refine ⟨fun h1 h2 => ?_, fun h1 => ?_, fun h2 => ?_⟩
  · simp [handleClientMsg, h1, h2]
  · cases hs : st.status with
    | Queued => exact absurd hs h1
    | Idle => simp [handleClientMsg, hs]
    | QueuePending => simp [handleClientMsg, hs]
    | MatchPending a => simp [handleClientMsg, hs]
    | MatchConfirmed a => simp [handleClientMsg, hs]
  · cases hs : st.status with
    | Queued => simp [handleClientMsg, hs, h2]
    | Idle => simp [handleClientMsg, hs]
    | QueuePending => simp [handleClientMsg, hs]
    | MatchPending a => simp [handleClientMsg, hs]
    | MatchConfirmed a => simp [handleClientMsg, hs]

/-- Witness for C2 at `stQueued` (status `Queued`, 4 in
`outgoing_challenges`): `Accept` from 4 sends `Start(0)` and moves to
`MatchPending(4)`. -/
theorem accept_guard_w :
    stQueued.status = Status.Queued
    ∧ (4 ∈ stQueued.outgoing_challenges)
    ∧ handleClientMsg stQueued 4 ClientToClient.Accept 0 =
        some ({ stQueued with status := Status.MatchPending 4 },
          [(4, ClientToClient.Start 0)]) :=
  ⟨rfl, by decide, (accept_guard stQueued 4 0).1 rfl (by decide)⟩

/-- Claim C6: once the status is `MatchConfirmed(p)`, a further `Accept` or
`Start` from any address leaves the whole state (in particular the status)
unchanged and sends nothing. -/
theorem confirmed_idempotent (st : ClientState) (p src t lt : Nat)
    (h : st.status = Status.MatchConfirmed p) :
    handleClientMsg st src ClientToClient.Accept lt = some (st, [])
    ∧ handleClientMsg st src (ClientToClient.Start t) lt = some (st, []) := by
  constructor
  · simp [handleClientMsg, h]
  · simp [handleClientMsg, h]

/-- Witness for C6 at `stConfirmed` (match confirmed with 9), receiving a
duplicate from 9 itself. -/
theorem confirmed_idempotent_w :
    stConfirmed.status = Status.MatchConfirmed 9
    ∧ handleClientMsg stConfirmed 9 ClientToClient.Accept 0 =
        some (stConfirmed, [])
    ∧ handleClientMsg stConfirmed 9 (ClientToClient.Start 3) 0 =
        some (stConfirmed, []) :=
  ⟨rfl, (confirmed_idempotent stConfirmed 9 9 3 0 rfl).1,
    (confirmed_idempotent stConfirmed 9 9 3 0 rfl).2⟩

/-- Claim C7: a `PingResponse(t0)` from a known peer updates that peer with
the sample `(local_time - t0) / 2`; `add_ping` increments the sample count,
sets the estimate to the sample when there was no prior estimate, and to
`old / 2 + sample / 2` when there was one; for two samples s1 then s2 on a
fresh peer the estimate is s1 after the first and `s1 / 2 + s2 / 2` after
the second. -/
theorem ping_latency_estimate (st : ClientState) (src t0 lt s1 s2 a : Nat)
    (peer : Peer) (h1 : mlookup st.peers src = some peer) (h2 : t0 ≤ lt) :
    handleClientMsg st src (ClientToClient.PingResponse t0) lt =
      some ({ st with
              peers := mapInsert src (peer.add_ping ((lt - t0) / 2)) st.peers },
        [])
    ∧ (peer.add_ping s1).ping_count = peer.ping_count + 1
    ∧ (peer.latency = none → (peer.add_ping s1).latency = some s1)
    ∧ (∀ old, peer.latency = some old →
        (peer.add_ping s1).latency = some (old / 2 + s1 / 2))
    ∧ ((Peer.new a).add_ping s1).latency = some s1
    ∧ (((Peer.new a).add_ping s1).add_ping s2).latency =
        some (s1 / 2 + s2 / 2) := by
  refine ⟨?_, ?_, fun hn => ?_, fun old ho => ?_, ?_, ?_⟩
  · simp [handleClientMsg, h1, checkedSub, h2]
  · simp [Peer.add_ping]
  · simp [Peer.add_ping, hn]
  · simp [Peer.add_ping, ho]
  · simp [Peer.add_ping, Peer.new]
  · simp [Peer.add_ping, Peer.new]

/-- Witness for C7 at `stQueued` with peer 4, timestamp 3, local time 11:
the sample is (11 - 3) / 2 = 4. -/
theorem ping_latency_estimate_w :
    mlookup stQueued.peers 4 = some (Peer.new 4)
    ∧ (3 : Nat) ≤ 11
    ∧ handleClientMsg stQueued 4 (ClientToClient.PingResponse 3) 11 =
        some ({ stQueued with
                peers := mapInsert 4 ((Peer.new 4).add_ping ((11 - 3) / 2))
                  stQueued.peers }, []) :=
  ⟨by decide, by decide,
    (ping_latency_estimate stQueued 4 3 11 0 0 0 (Peer.new 4)
      (by decide) (by decide)).1⟩

/-- Claim C9: processing `Peers(set)` inserts every address of the set into
the peer table as a freshly constructed `Peer::new` — latency `none` and
sample count 0 — replacing any existing entry for that address. -/
theorem peers_message_resets (st : ClientState) (s : Finset Nat) (a : Nat)
    (h : a ∈ s) :
    mlookup (handleServerMsg st (ServerToClient.Peers s)).peers a =
      some (Peer.new a)
    ∧ (Peer.new a).latency = none
    ∧ (Peer.new a).ping_count = 0 := by
  refine ⟨?_, rfl, rfl⟩
  have hm : a ∈ fanoutList s := mem_fanoutList.mpr h
  simp only [handleServerMsg]
  exact mlookup_peerFoldl_mem a (fanoutList s) st.peers hm

/-- Witness for C9 at `stOldPeer`, whose peer 4 has latency estimate 100 and
sample count 3: after `Peers({4})` the entry for 4 is `Peer::new 4`. -/
theorem peers_message_resets_w :
    (4 ∈ ({4} : Finset Nat))
    ∧ mlookup (handleServerMsg stOldPeer (ServerToClient.Peers {4})).peers 4 =
        some (Peer.new 4) :=
  ⟨by decide, (peers_message_resets stOldPeer {4} 4 (by decide)).1⟩

/-- Claim C10: for a `PingResponse(t0)` from a known peer, the handler's
unguarded `u128` subtraction `local_time - t0` is well-defined (no
underflow) exactly when `t0 ≤ local_time`; with `t0 > local_time` the
subtraction underflows and the handler step has no defined result. -/
theorem pingresponse_underflow_guard (st : ClientState) (src t0 lt : Nat)
    (peer : Peer) (h : mlookup st.peers src = some peer) :
    (handleClientMsg st src (ClientToClient.PingResponse t0) lt).isSome = true
      ↔ t0 ≤ lt := by
  by_cases h2 : t0 ≤ lt
  · simp [handleClientMsg, h, checkedSub, h2]
  · simp [handleClientMsg, h, checkedSub, h2]

/-- Witness for C10 at `stQueued` with known peer 4 and `t0 = 3 ≤ 11`. -/
theorem pingresponse_underflow_guard_w :
    mlookup stQueued.peers 4 = some (Peer.new 4)
    ∧ (handleClientMsg stQueued 4
        (ClientToClient.PingResponse 3) 11).isSome = true :=
  ⟨by decide,
    (pingresponse_underflow_guard stQueued 4 3 11 (Peer.new 4)
      (by decide)).mpr (by decide)⟩

/-- Claim C8: evaluating the server-connection life cycle. Calling `queue()`
from the initial state (status `Idle`, connection `Disconnected`) sends
`Queue` and sets status `QueuePending`, but leaves the server connection
`Disconnected` — it does not become `Connecting`: the `Disconnected` branch
of `Client::queue` only emits a placeholder debug log, and
`ServerConnection::Connecting` is constructed nowhere in the crate. The
transitions the handler does implement: a transport connect notification for
the server address yields `Connected`, a timeout notification yields
`Disconnected`, and a `Connecting` status past its deadline reverts to
`Disconnected` at the end of a loop iteration. -/
theorem queue_connection_lifecycle :
    (Client.queue initialClientState).1.server_connection =
        ServerConnection.Disconnected
    ∧ (Client.queue initialClientState).1.status = Status.QueuePending
    ∧ (Client.queue initialClientState).2 = [ClientToServer.Queue]
    ∧ handleConnect 0 0 ServerConnection.Disconnected =
        ServerConnection.Connected
    ∧ handleConnect 0 1 ServerConnection.Disconnected =
        ServerConnection.Disconnected
    ∧ handleTimeout 0 0 ServerConnection.Connected =
        ServerConnection.Disconnected
    ∧ checkConnectingDeadline (ServerConnection.Connecting 5) 6 =
        ServerConnection.Disconnected
    ∧ checkConnectingDeadline (ServerConnection.Connecting 5) 5 =
        ServerConnection.Connecting 5 := by
  exact ⟨rfl, rfl, rfl, rfl, rfl, rfl, rfl, rfl⟩
